import Mathlib

set_option maxHeartbeats 1000000

namespace JsToTs

/-- TypeScript type nodes produced by the type deducer in src/node_new.js.
`tsArrayTypeRef tag` models `t.tsArrayType(t.tsTypeReference(t.identifier(tag)))`:
the element type is a type *reference* whose name is the tag string. -/
inductive TSType where
  | tsNumberKeyword
  | tsStringKeyword
  | tsBooleanKeyword
  | tsNullKeyword
  | tsUndefinedKeyword
  | tsAnyKeyword
  | tsVoidKeyword
  | tsArrayTypeRef (tag : String)
  deriving DecidableEq, Repr

/-- An identifier node as it appears in binding position (a declarator's `id`).
`typeAnn` models the node's `typeAnnotation` slot; the `t.tsTypeAnnotation`
wrapper carries no information and is elided, so `some ty` means the slot holds
`t.tsTypeAnnotation(ty)` and `none` means the slot is unset. -/
structure Ident where
  name : String
  typeAnn : Option TSType
  deriving DecidableEq, Repr

/-- A function parameter node. `typeAnn` models its `typeAnnotation` slot as in
`Ident`. -/
structure Param where
  name : String
  typeAnn : Option TSType
  deriving DecidableEq, Repr

mutual

/-- Expression nodes of the embedded AST, covering the shapes src/node_new.js
dispatches on (`NumericLiteral`, `StringLiteral`, `BooleanLiteral`,
`NullLiteral`, `Identifier`, `ArrayExpression`) plus the unsupported shapes the
design discusses (call, object, template, binary, arrow and plain function
expressions). Array elements are `Option Expr` because a babel
`ArrayExpression.elements` array may contain `null` holes. -/
inductive Expr where
  | numericLiteral
  | stringLiteral
  | booleanLiteral
  | nullLiteral
  | identifier (name : String)
  | arrayExpression (elements : List (Option Expr))
  | callExpression (callee : Expr) (args : List Expr)
  | objectExpression (values : List Expr)
  | templateLiteral (exprs : List Expr)
  | binaryExpression (left : Expr) (right : Expr)
  | arrowFunctionExpression (params : List Param) (body : ArrowBody) (returnType : Option TSType)
  | functionExpression (params : List Param) (body : List Stmt) (returnType : Option TSType)

/-- Body of an arrow function: either a block statement or a bare expression. -/
inductive ArrowBody where
  | block (stmts : List Stmt)
  | expr (e : Expr)

/-- Statement nodes of the embedded AST. `functionDeclaration`'s body is the
statement list of its block; `returnType` models the node's `returnType` slot
(`some` = a `t.tsTypeAnnotation` is present, `none` = the slot is null). -/
inductive Stmt where
  | variableDeclaration (decls : List Declarator)
  | functionDeclaration (params : List Param) (body : List Stmt) (returnType : Option TSType)
  | returnStatement (argument : Option Expr)
  | expressionStatement (e : Expr)
  | ifStatement (test : Expr) (consequent : Stmt) (alternate : Option Stmt)

/-- A `VariableDeclarator` node: the bound identifier and the optional
initializer. -/
inductive Declarator where
  | mk (id : Ident) (init : Option Expr)

end

/-- Projection: the bound identifier of a declarator. -/
def Declarator.id : Declarator → Ident
  | .mk i _ => i

/-- Projection: the initializer of a declarator. -/
def Declarator.init : Declarator → Option Expr
  | .mk _ i => i

/-- The per-element mapping inside `deduceElementType` (src/node_new.js lines
18-29), the body of the `elements.map` callback. A `none` result models the
JavaScript value `undefined`: when `el` is an `Identifier` whose name is not
"undefined", the `break` exits the `switch` and the callback falls off its end
without returning a tag string. -/
def mapElementTag (el : Option Expr) : Option String :=
  match el with
  | none => some "null"
  | some e =>
    match e with
    | .numericLiteral => some "number"
    | .stringLiteral => some "string"
    | .booleanLiteral => some "boolean"
    | .nullLiteral => some "null"
    | .identifier name => if name = "undefined" then some "undefined" else none
    | _ => some "any"

/-- `deduceElementType` (src/node_new.js lines 14-35). Collects the distinct
values produced by `mapElementTag` (the JS `Set`); when exactly one distinct
value results it is returned as-is — including the `none` case where the set's
single member is the JavaScript value `undefined` — otherwise the result is the
tag "any". The `!elements` guard is subsumed by the empty check, since
`ArrayExpression.elements` is always an array at the call site. -/
def deduceElementType (elements : List (Option Expr)) : Option String :=
  if elements.isEmpty then
    some "any"
  else
    match (elements.map mapElementTag).dedup with
    | [t] => t
    | _ => some "any"

/-- `deduceExpressionType` (src/node_new.js lines 38-54). Takes an expression
node or `none` (null/absent). In the `ArrayExpression` branch the code builds
`t.tsArrayType(t.tsTypeReference(t.identifier(elementType)))`; when
`deduceElementType` produced the JavaScript value `undefined` instead of a tag
string, `t.identifier(undefined)` fails @babel/types field validation
(`name` must be a string) and throws a TypeError — modelled by the `none`
result. Every other branch returns a keyword type, with `tsAnyKeyword` as the
final fallback. -/
def deduceExpressionType (expression : Option Expr) : Option TSType :=
  match expression with
  | some .numericLiteral => some .tsNumberKeyword
  | some .stringLiteral => some .tsStringKeyword
  | some .booleanLiteral => some .tsBooleanKeyword
  | some .nullLiteral => some .tsNullKeyword
  | some (.identifier name) =>
    if name = "undefined" then some .tsUndefinedKeyword else some .tsAnyKeyword
  | some (.arrayExpression elements) =>
    match deduceElementType elements with
    | some tag => some (.tsArrayTypeRef tag)
    | none => none
  | _ => some .tsAnyKeyword

/-- Parameter handling shared by the `FunctionDeclaration` and
`ArrowFunctionExpression` visitors (src/node_new.js lines 68-70 and 84-86):
`params.forEach(param => { param.typeAnnotation = t.tsTypeAnnotation(t.tsAnyKeyword()); })`.
The write is unguarded, so any annotation already on the parameter is
replaced. -/
def annotateParams (params : List Param) : List Param :=
  params.map (fun p => Param.mk p.name (some .tsAnyKeyword))

/-- The `forEach` loop scanning a function's immediate body statements
(src/node_new.js lines 74-78 and 90-94): starting from `acc` (the `void`
default), every `ReturnStatement` whose `argument` is non-null overwrites the
accumulator with the deducer's result for that argument; a thrown deduction
(`none`) aborts the whole scan. -/
def scanReturns (stmts : List Stmt) (acc : TSType) : Option TSType :=
  match stmts with
  | [] => some acc
  | s :: rest =>
    match s with
    | .returnStatement (some arg) =>
      match deduceExpressionType (some arg) with
      | some ty => scanReturns rest ty
      | none => none
    | .returnStatement none => scanReturns rest acc
    | .variableDeclaration _ => scanReturns rest acc
    | .functionDeclaration _ _ _ => scanReturns rest acc
    | .expressionStatement _ => scanReturns rest acc
    | .ifStatement _ _ _ => scanReturns rest acc

/-- Return-type logic of the `FunctionDeclaration` visitor (src/node_new.js
lines 71-81): if a `returnType` is already present the node is left unchanged;
otherwise the slot is set to the scan's result, starting from `void`. The
`body.body.length > 0` guard in the source is subsumed: scanning an empty list
leaves the `void` default. The outer `Option` is the exception monad of the
deducer. -/
def functionDeclarationReturnType (returnType : Option TSType) (body : List Stmt) :
    Option (Option TSType) :=
  match returnType with
  | some rt => some (some rt)
  | none =>
    match scanReturns body .tsVoidKeyword with
    | some ty => some (some ty)
    | none => none

/-- Return-type logic of the `ArrowFunctionExpression` visitor (src/node_new.js
lines 87-99): same guard and scan as for function declarations when the body is
a block; for an expression body the deducer is applied directly to that
expression. -/
def arrowFunctionReturnType (returnType : Option TSType) (body : ArrowBody) :
    Option (Option TSType) :=
  match returnType with
  | some rt => some (some rt)
  | none =>
    match body with
    | .block stmts =>
      match scanReturns stmts .tsVoidKeyword with
      | some ty => some (some ty)
      | none => none
    | .expr e =>
      match deduceExpressionType (some e) with
      | some ty => some (some ty)
      | none => none

mutual

/-- Traversal of `addTypeAnnotations` (src/node_new.js lines 57-102) restricted
to an expression subtree. `babelTraverse` visits every node; the visitor fires
on `ArrowFunctionExpression` nodes (annotating parameters and the return-type
slot) and on nothing else at expression level — in particular a plain
`FunctionExpression`'s own slots are untouched, though traversal continues into
its body. The `Option` result is the exception monad: `none` models a TypeError
thrown by the deducer propagating out of the traversal. -/
def annotateExpr : Expr → Option Expr
  | .numericLiteral => some .numericLiteral
  | .stringLiteral => some .stringLiteral
  | .booleanLiteral => some .booleanLiteral
  | .nullLiteral => some .nullLiteral
  | .identifier name => some (.identifier name)
  | .arrayExpression elements =>
    match annotateOptExprs elements with
    | some elements' => some (.arrayExpression elements')
    | none => none
  | .callExpression callee args =>
    match annotateExpr callee with
    | some callee' =>
      match annotateExprs args with
      | some args' => some (.callExpression callee' args')
      | none => none
    | none => none
  | .objectExpression values =>
    match annotateExprs values with
    | some values' => some (.objectExpression values')
    | none => none
  | .templateLiteral exprs =>
    match annotateExprs exprs with
    | some exprs' => some (.templateLiteral exprs')
    | none => none
  | .binaryExpression left right =>
    match annotateExpr left with
    | some left' =>
      match annotateExpr right with
      | some right' => some (.binaryExpression left' right')
      | none => none
    | none => none
  | .arrowFunctionExpression params body returnType =>
    match arrowFunctionReturnType returnType body with
    | some returnType' =>
      match annotateArrowBody body with
      | some body' => some (.arrowFunctionExpression (annotateParams params) body' returnType')
      | none => none
    | none => none
  | .functionExpression params body returnType =>
    match annotateStmts body with
    | some body' => some (.functionExpression params body' returnType)
    | none => none

/-- Traversal into an arrow-function body. -/
def annotateArrowBody : ArrowBody → Option ArrowBody
  | .block stmts =>
    match annotateStmts stmts with
    | some stmts' => some (.block stmts')
    | none => none
  | .expr e =>
    match annotateExpr e with
    | some e' => some (.expr e')
    | none => none

/-- Traversal of `addTypeAnnotations` restricted to a statement. The visitor
fires on `FunctionDeclaration` nodes (parameters and return-type slot); other
statement kinds are merely traversed into. -/
def annotateStmt : Stmt → Option Stmt
  | .variableDeclaration decls =>
    match annotateDecls decls with
    | some decls' => some (.variableDeclaration decls')
    | none => none
  | .functionDeclaration params body returnType =>
    match functionDeclarationReturnType returnType body with
    | some returnType' =>
      match annotateStmts body with
      | some body' => some (.functionDeclaration (annotateParams params) body' returnType')
      | none => none
    | none => none
  | .returnStatement arg =>
    match annotateOptExpr arg with
    | some arg' => some (.returnStatement arg')
    | none => none
  | .expressionStatement e =>
    match annotateExpr e with
    | some e' => some (.expressionStatement e')
    | none => none
  | .ifStatement test consequent alternate =>
    match annotateExpr test with
    | some test' =>
      match annotateStmt consequent with
      | some consequent' =>
        match annotateOptStmt alternate with
        | some alternate' => some (.ifStatement test' consequent' alternate')
        | none => none
      | none => none
    | none => none

/-- The `VariableDeclarator` visitor (src/node_new.js lines 59-66): with an
initializer present, the bound identifier's annotation slot is set —
unguarded, replacing any existing annotation — to the deducer's result for the
initializer; otherwise it is set to `any`. Traversal then continues into the
initializer expression. -/
def annotateDecl : Declarator → Option Declarator
  | .mk id init =>
    match init with
    | some initExpr =>
      match deduceExpressionType (some initExpr) with
      | some inferredType =>
        match annotateExpr initExpr with
        | some init' => some (.mk (Ident.mk id.name (some inferredType)) (some init'))
        | none => none
      | none => none
    | none => some (.mk (Ident.mk id.name (some .tsAnyKeyword)) none)

/-- Pointwise traversal of a list of expressions. -/
def annotateExprs : List Expr → Option (List Expr)
  | [] => some []
  | e :: rest =>
    match annotateExpr e with
    | some e' =>
      match annotateExprs rest with
      | some rest' => some (e' :: rest')
      | none => none
    | none => none

/-- Traversal of an optional expression (absent nodes are skipped). -/
def annotateOptExpr : Option Expr → Option (Option Expr)
  | none => some none
  | some e =>
    match annotateExpr e with
    | some e' => some (some e')
    | none => none

/-- Pointwise traversal of array elements (which may contain `null` holes). -/
def annotateOptExprs : List (Option Expr) → Option (List (Option Expr))
  | [] => some []
  | el :: rest =>
    match annotateOptExpr el with
    | some el' =>
      match annotateOptExprs rest with
      | some rest' => some (el' :: rest')
      | none => none
    | none => none

/-- Pointwise traversal of a statement list. -/
def annotateStmts : List Stmt → Option (List Stmt)
  | [] => some []
  | s :: rest =>
    match annotateStmt s with
    | some s' =>
      match annotateStmts rest with
      | some rest' => some (s' :: rest')
      | none => none
    | none => none

/-- Traversal of an optional statement. -/
def annotateOptStmt : Option Stmt → Option (Option Stmt)
  | none => some none
  | some s =>
    match annotateStmt s with
    | some s' => some (some s')
    | none => none

/-- Pointwise traversal of the declarator list of a `VariableDeclaration`. -/
def annotateDecls : List Declarator → Option (List Declarator)
  | [] => some []
  | d :: rest =>
    match annotateDecl d with
    | some d' =>
      match annotateDecls rest with
      | some rest' => some (d' :: rest')
      | none => none
    | none => none

end

/-- `addTypeAnnotations` (src/node_new.js lines 57-102) applied to a whole
program, modelled as its top-level statement list. -/
def addTypeAnnots (ast : List Stmt) : Option (List Stmt) :=
  annotateStmts ast

/-- Projection: parameter list of a function declaration. -/
def fnDeclParams : Stmt → List Param
  | .functionDeclaration ps _ _ => ps
  | _ => []

/-- Projection: return-type slot of a function declaration. -/
def fnDeclReturnType : Stmt → Option TSType
  | .functionDeclaration _ _ rt => rt
  | _ => none

/-- Projection: parameter list of an arrow function expression. -/
def arrowParams : Expr → List Param
  | .arrowFunctionExpression ps _ _ => ps
  | _ => []

/-- Projection: return-type slot of an arrow function expression. -/
def arrowReturnType : Expr → Option TSType
  | .arrowFunctionExpression _ _ rt => rt
  | _ => none

/-- Projection: parameter list of a plain (non-arrow) function expression. -/
def fnExprParams : Expr → List Param
  | .functionExpression ps _ _ => ps
  | _ => []

/-- Projection: return-type slot of a plain function expression. -/
def fnExprReturnType : Expr → Option TSType
  | .functionExpression _ _ rt => rt
  | _ => none

/-- Recognizer for plain function expressions. -/
def isFunctionExpression : Expr → Bool
  | .functionExpression _ _ _ => true
  | _ => false

/-- C1: a numeric literal deduces to `number`, a string literal to `string`, a
boolean literal to `boolean`, a null literal to `null`, the identifier
"undefined" to `undefined`, and every other non-array shape — identifiers with
any other name, call expressions, object literals, template literals, binary
expressions, arrow and plain function expressions — to `any`. -/
theorem deducer_non_array_tags :
    deduceExpressionType (some .numericLiteral) = some .tsNumberKeyword ∧
    deduceExpressionType (some .stringLiteral) = some .tsStringKeyword ∧
    deduceExpressionType (some .booleanLiteral) = some .tsBooleanKeyword ∧
    deduceExpressionType (some .nullLiteral) = some .tsNullKeyword ∧
    deduceExpressionType (some (.identifier "undefined")) = some .tsUndefinedKeyword ∧
    (∀ name : String, name ≠ "undefined" →
      deduceExpressionType (some (.identifier name)) = some .tsAnyKeyword) ∧
    (∀ callee args, deduceExpressionType (some (.callExpression callee args)) = some .tsAnyKeyword) ∧
    (∀ values, deduceExpressionType (some (.objectExpression values)) = some .tsAnyKeyword) ∧
    (∀ exprs, deduceExpressionType (some (.templateLiteral exprs)) = some .tsAnyKeyword) ∧
    (∀ l r, deduceExpressionType (some (.binaryExpression l r)) = some .tsAnyKeyword) ∧
    (∀ ps b rt,
      deduceExpressionType (some (.arrowFunctionExpression ps b rt)) = some .tsAnyKeyword) ∧
    (∀ ps b rt, deduceExpressionType (some (.functionExpression ps b rt)) = some .tsAnyKeyword) := by
  refine ⟨rfl, rfl, rfl, rfl, rfl, ?_, fun _ _ => rfl, fun _ => rfl, fun _ => rfl,
    fun _ _ => rfl, fun _ _ _ => rfl, fun _ _ _ => rfl⟩
  intro name h
  simp [deduceExpressionType, h]

/-- Witness for C1: the identifier `x` (name ≠ "undefined") deduces to `any`. -/
theorem deducer_non_array_tags_w :
    deduceExpressionType (some (.identifier "x")) = some .tsAnyKeyword :=
  deducer_non_array_tags.2.2.2.2.2.1 "x" (by decide)

/-- C2: the documented element-type-unification examples hold, but the rule
"any other non-matching shape maps to `any`" fails for identifier elements
whose name is not "undefined": the `break` in the element mapper falls off the
callback, which thus yields the JavaScript value `undefined` instead of a tag;
when that is the only distinct value, `deduceElementType` returns it and the
deducer crashes building `t.identifier(undefined)` (modelled by `none`). -/
theorem element_unification_ident_bug :
    deduceExpressionType (some (.arrayExpression [])) = some (.tsArrayTypeRef "any") ∧
    deduceExpressionType
        (some (.arrayExpression [some .numericLiteral, some .numericLiteral,
          some .numericLiteral])) = some (.tsArrayTypeRef "number") ∧
    deduceExpressionType (some (.arrayExpression [some .stringLiteral, some .numericLiteral]))
      = some (.tsArrayTypeRef "any") ∧
    deduceExpressionType (some (.arrayExpression [some .nullLiteral, some .nullLiteral]))
      = some (.tsArrayTypeRef "null") ∧
    deduceExpressionType (some (.arrayExpression [some (.identifier "undefined")]))
      = some (.tsArrayTypeRef "undefined") ∧
    deduceElementType [some (.identifier "x"), some (.identifier "y")] = none ∧
    deduceExpressionType
        (some (.arrayExpression [some (.identifier "x"), some (.identifier "y")])) = none :=
  ⟨rfl, rfl, rfl, rfl, rfl, rfl, rfl⟩

/-- C4: the deducer is not total — on an array literal whose elements are
identifiers not named "undefined" it fails (the element mapper produces the
JavaScript value `undefined`, and `t.identifier(undefined)` fails @babel/types
validation), contradicting the claimed totality. -/
theorem deducer_not_total :
    deduceExpressionType (some (.arrayExpression [some (.identifier "x")])) = none :=
  rfl

/-- C5: when a declarator has an initializer and the deducer succeeds on it,
the declared identifier is annotated with the deducer's result; without an
initializer it is annotated with `any`. -/
theorem declarator_annotated_from_init :
    (∀ (id : Ident) (initExpr : Expr) (ty : TSType) (init' : Expr),
        deduceExpressionType (some initExpr) = some ty →
        annotateExpr initExpr = some init' →
        annotateDecl (.mk id (some initExpr))
          = some (.mk (Ident.mk id.name (some ty)) (some init'))) ∧
    (∀ id : Ident,
        annotateDecl (.mk id none) = some (.mk (Ident.mk id.name (some .tsAnyKeyword)) none)) := by
  constructor
  · intro id initExpr ty init' hded hann
    simp [annotateDecl, hded, hann]
  · intro id
    rfl

/-- Witness for C5: `const x = 5;` yields declared type `number`. -/
theorem declarator_annotated_from_init_w :
    annotateDecl (.mk (Ident.mk "x" none) (some .numericLiteral))
      = some (.mk (Ident.mk "x" (some .tsNumberKeyword)) (some .numericLiteral)) :=
  declarator_annotated_from_init.1 (Ident.mk "x" none) .numericLiteral .tsNumberKeyword
    .numericLiteral rfl rfl

/-- C9: the pass leaves a plain (non-arrow) function expression's own slots
untouched — whenever traversal of such a node returns, the result is still a
function expression with the original parameter list (annotations included)
and the original return-type slot. -/
theorem function_expression_untouched :
    ∀ (params : List Param) (body : List Stmt) (rt : Option TSType) (e' : Expr),
      annotateExpr (.functionExpression params body rt) = some e' →
      isFunctionExpression e' = true ∧ fnExprParams e' = params ∧ fnExprReturnType e' = rt := by
  intro params body rt e' h
  rw [annotateExpr] at h
  cases hb : annotateStmts body with
  | none => rw [hb] at h; exact absurd h (by simp)
  | some body' =>
    rw [hb] at h
    cases h
    exact ⟨rfl, rfl, rfl⟩

/-- Witness for C9: a function expression with one unannotated parameter comes
out of the pass with that parameter still unannotated and its return slot
still empty. -/
theorem function_expression_untouched_w :
    isFunctionExpression (.functionExpression [Param.mk "g" none] [] none) = true ∧
    fnExprParams (.functionExpression [Param.mk "g" none] [] none) = [Param.mk "g" none] ∧
    fnExprReturnType (.functionExpression [Param.mk "g" none] [] none) = none :=
  function_expression_untouched [Param.mk "g" none] [] none
    (.functionExpression [Param.mk "g" none] [] none) rfl

/-- C10: the declarator write is unguarded — whatever annotation the declared
identifier carried before the pass, it is replaced by the newly deduced type
(or by `any` when there is no initializer). -/
theorem declarator_write_unguarded :
    (∀ (name : String) (oldAnn : Option TSType) (initExpr : Expr) (ty : TSType) (init' : Expr),
        deduceExpressionType (some initExpr) = some ty →
        annotateExpr initExpr = some init' →
        annotateDecl (.mk (Ident.mk name oldAnn) (some initExpr))
          = some (.mk (Ident.mk name (some ty)) (some init'))) ∧
    (∀ (name : String) (oldAnn : Option TSType),
        annotateDecl (.mk (Ident.mk name oldAnn) none)
          = some (.mk (Ident.mk name (some .tsAnyKeyword)) none)) := by
  constructor
  · intro name oldAnn initExpr ty init' hded hann
    simp [annotateDecl, hded, hann]
  · intro name oldAnn
    rfl

/-- Witness for C10: a declarator whose identifier already carries a `string`
annotation is re-annotated with the deduced `number`. -/
theorem declarator_write_unguarded_w :
    annotateDecl (.mk (Ident.mk "x" (some .tsStringKeyword)) (some .numericLiteral))
      = some (.mk (Ident.mk "x" (some .tsNumberKeyword)) (some .numericLiteral)) :=
  declarator_write_unguarded.1 "x" (some .tsStringKeyword) .numericLiteral .tsNumberKeyword
    .numericLiteral rfl rfl

/-- C6: every parameter of a visited function node is unconditionally
annotated `any` — whatever annotations the parameters carried, and whether or
not a return-type annotation was already present (the return-type write is
guarded, the parameter write is not). -/
theorem params_forced_any :
    (∀ (params : List Param) (body : List Stmt) (rt : Option TSType) (s' : Stmt),
        annotateStmt (.functionDeclaration params body rt) = some s' →
        fnDeclParams s' = params.map (fun p => Param.mk p.name (some .tsAnyKeyword))) ∧
    (∀ (params : List Param) (body : ArrowBody) (rt : Option TSType) (e' : Expr),
        annotateExpr (.arrowFunctionExpression params body rt) = some e' →
        arrowParams e' = params.map (fun p => Param.mk p.name (some .tsAnyKeyword))) := by
  constructor
  · intro params body rt s' h
    rw [annotateStmt] at h
    cases hrt : functionDeclarationReturnType rt body with
    | none => rw [hrt] at h; exact absurd h (by simp)
    | some rt' =>
      rw [hrt] at h
      cases hb : annotateStmts body with
      | none => rw [hb] at h; exact absurd h (by simp)
      | some body' =>
        rw [hb] at h
        cases h
        rfl
  · intro params body rt e' h
    rw [annotateExpr] at h
    cases hrt : arrowFunctionReturnType rt body with
    | none => rw [hrt] at h; exact absurd h (by simp)
    | some rt' =>
      rw [hrt] at h
      cases hb : annotateArrowBody body with
      | none => rw [hb] at h; exact absurd h (by simp)
      | some body' =>
        rw [hb] at h
        cases h
        rfl

/-- Witness for C6: a function declaration with a `string`-annotated parameter
and a pre-existing return annotation still gets the parameter forced to
`any`. -/
theorem params_forced_any_w :
    fnDeclParams (.functionDeclaration [Param.mk "a" (some .tsAnyKeyword)] []
        (some .tsNumberKeyword))
      = [Param.mk "a" (some .tsAnyKeyword)] :=
  params_forced_any.1 [Param.mk "a" (some .tsStringKeyword)] [] (some .tsNumberKeyword)
    (.functionDeclaration [Param.mk "a" (some .tsAnyKeyword)] [] (some .tsNumberKeyword)) rfl

/-- The arguments of the return statements among a function's immediate
top-level body statements, in order: exactly the statements the visitor's scan
matches (`t.isReturnStatement(statement) && statement.argument != null`). -/
def returnArgs : List Stmt → List Expr
  | [] => []
  | s :: rest =>
    match s with
    | .returnStatement (some a) => a :: returnArgs rest
    | .returnStatement none => returnArgs rest
    | .variableDeclaration _ => returnArgs rest
    | .functionDeclaration _ _ _ => returnArgs rest
    | .expressionStatement _ => returnArgs rest
    | .ifStatement _ _ _ => returnArgs rest

/-- Characterization of the visitor's scan loop: when the deducer succeeds on
every matching top-level return argument, the scan returns the accumulator if
there is no matching return, and the deducer's result for the last matching
return otherwise (last write wins). -/
theorem scanReturns_spec :
    ∀ (stmts : List Stmt) (acc : TSType),
      (∀ b ∈ returnArgs stmts, (deduceExpressionType (some b)).isSome) →
      scanReturns stmts acc =
        (match (returnArgs stmts).getLast? with
         | none => some acc
         | some a => deduceExpressionType (some a)) := by
  intro stmts
  induction stmts with
  | nil => intro acc _; rfl
  | cons s rest ih =>
    intro acc h
    match s with
    | .returnStatement (some a) =>
      have ha : (deduceExpressionType (some a)).isSome := by
        apply h; rw [returnArgs]; exact List.mem_cons_self a _
      obtain ⟨ty, hty⟩ := Option.isSome_iff_exists.mp ha
      have hrest : ∀ b ∈ returnArgs rest, (deduceExpressionType (some b)).isSome := by
        intro b hb; apply h; rw [returnArgs]; exact List.mem_cons_of_mem a hb
      rw [scanReturns, hty]
      show scanReturns rest ty = _
      rw [ih ty hrest]
      cases hargs : returnArgs rest with
      | nil => simp [returnArgs, hargs, hty]
      | cons b bs =>
        simp only [returnArgs, hargs, List.getLast?_cons_cons]
        cases hl : (b :: bs).getLast? with
        | none => simp at hl
        | some c => rfl
    | .returnStatement none =>
      have hrest : ∀ b ∈ returnArgs rest, (deduceExpressionType (some b)).isSome := by
        intro b hb; apply h; rw [returnArgs]; exact hb
      rw [scanReturns, returnArgs]
      exact ih acc hrest
    | .variableDeclaration decls =>
      have hrest : ∀ b ∈ returnArgs rest, (deduceExpressionType (some b)).isSome := by
        intro b hb; apply h; rw [returnArgs]; exact hb
      rw [scanReturns, returnArgs]
      exact ih acc hrest
    | .functionDeclaration ps bd rt =>
      have hrest : ∀ b ∈ returnArgs rest, (deduceExpressionType (some b)).isSome := by
        intro b hb; apply h; rw [returnArgs]; exact hb
      rw [scanReturns, returnArgs]
      exact ih acc hrest
    | .expressionStatement e =>
      have hrest : ∀ b ∈ returnArgs rest, (deduceExpressionType (some b)).isSome := by
        intro b hb; apply h; rw [returnArgs]; exact hb
      rw [scanReturns, returnArgs]
      exact ih acc hrest
    | .ifStatement t c alt =>
      have hrest : ∀ b ∈ returnArgs rest, (deduceExpressionType (some b)).isSome := by
        intro b hb; apply h; rw [returnArgs]; exact hb
      rw [scanReturns, returnArgs]
      exact ih acc hrest

/-- C3: return-type policy. A pre-existing return annotation makes the visitor
leave the slot unchanged; otherwise the slot defaults to `void` when no
immediate top-level return statement carries an argument, and is set to the
deducer's result for the textually last such return statement (last write
wins, as long as the deducer succeeds on each scanned argument); an
expression-bodied arrow function gets the deducer's result for its body
expression; and the visitor writes exactly this computed slot into the node. -/
theorem return_type_policy :
    (∀ (rt : TSType) (body : List Stmt),
        functionDeclarationReturnType (some rt) body = some (some rt)) ∧
    (∀ body : List Stmt, returnArgs body = [] →
        functionDeclarationReturnType none body = some (some .tsVoidKeyword)) ∧
    (∀ (body : List Stmt) (a : Expr) (ty : TSType),
        (returnArgs body).getLast? = some a →
        deduceExpressionType (some a) = some ty →
        (∀ b ∈ returnArgs body, (deduceExpressionType (some b)).isSome) →
        functionDeclarationReturnType none body = some (some ty)) ∧
    (∀ (rt : TSType) (body : ArrowBody),
        arrowFunctionReturnType (some rt) body = some (some rt)) ∧
    (∀ stmts : List Stmt, returnArgs stmts = [] →
        arrowFunctionReturnType none (.block stmts) = some (some .tsVoidKeyword)) ∧
    (∀ (stmts : List Stmt) (a : Expr) (ty : TSType),
        (returnArgs stmts).getLast? = some a →
        deduceExpressionType (some a) = some ty →
        (∀ b ∈ returnArgs stmts, (deduceExpressionType (some b)).isSome) →
        arrowFunctionReturnType none (.block stmts) = some (some ty)) ∧
    (∀ (e : Expr) (ty : TSType), deduceExpressionType (some e) = some ty →
        arrowFunctionReturnType none (.expr e) = some (some ty)) ∧
    (∀ (params : List Param) (body : List Stmt) (rt : Option TSType) (s' : Stmt),
        annotateStmt (.functionDeclaration params body rt) = some s' →
        functionDeclarationReturnType rt body = some (fnDeclReturnType s')) := by
  refine ⟨fun _ _ => rfl, ?_, ?_, fun _ _ => rfl, ?_, ?_, ?_, ?_⟩
  · intro body hempty
    have h : ∀ b ∈ returnArgs body, (deduceExpressionType (some b)).isSome := by
      intro b hb; rw [hempty] at hb; cases hb
    rw [functionDeclarationReturnType, scanReturns_spec body .tsVoidKeyword h, hempty]
    rfl
  · intro body a ty hlast hded h
    rw [functionDeclarationReturnType, scanReturns_spec body .tsVoidKeyword h, hlast]
    simp [hded]
  · intro stmts hempty
    have h : ∀ b ∈ returnArgs stmts, (deduceExpressionType (some b)).isSome := by
      intro b hb; rw [hempty] at hb; cases hb
    rw [arrowFunctionReturnType, scanReturns_spec stmts .tsVoidKeyword h, hempty]
    rfl
  · intro stmts a ty hlast hded h
    rw [arrowFunctionReturnType, scanReturns_spec stmts .tsVoidKeyword h, hlast]
    simp [hded]
  · intro e ty hded
    rw [arrowFunctionReturnType, hded]
  · intro params body rt s' h
    rw [annotateStmt] at h
    cases hrt : functionDeclarationReturnType rt body with
    | none => rw [hrt] at h; exact absurd h (by simp)
    | some rt' =>
      rw [hrt] at h
      cases hb : annotateStmts body with
      | none => rw [hb] at h; exact absurd h (by simp)
      | some body' =>
        rw [hb] at h
        cases h
        rfl

/-- Witness for C3: in `function g(){ if(c) return "a"; return 2; }` the
if-nested return is not scanned and the last top-level return decides, so the
computed return type is `number`. -/
theorem return_type_policy_w :
    functionDeclarationReturnType none
        [.ifStatement (.identifier "c") (.returnStatement (some .stringLiteral)) none,
         .returnStatement (some .numericLiteral)]
      = some (some .tsNumberKeyword) :=
  return_type_policy.2.2.1
    [.ifStatement (.identifier "c") (.returnStatement (some .stringLiteral)) none,
     .returnStatement (some .numericLiteral)]
    .numericLiteral .tsNumberKeyword rfl rfl (by decide)

mutual

/-- Full-tree check that every node kind the pass visits has its annotation
slots populated: declarator identifiers, and parameters and return-type slots
of function declarations and arrow functions. Slots of plain function
expressions are exempt (the pass never visits them); their bodies are still
checked, since traversal descends into them. -/
def exprSlotsPopulated : Expr → Bool
  | .numericLiteral => true
  | .stringLiteral => true
  | .booleanLiteral => true
  | .nullLiteral => true
  | .identifier _ => true
  | .arrayExpression elements => optExprsSlotsPopulated elements
  | .callExpression callee args => exprSlotsPopulated callee && exprsSlotsPopulated args
  | .objectExpression values => exprsSlotsPopulated values
  | .templateLiteral exprs => exprsSlotsPopulated exprs
  | .binaryExpression left right => exprSlotsPopulated left && exprSlotsPopulated right
  | .arrowFunctionExpression params body returnType =>
    params.all (fun p => p.typeAnn.isSome) && returnType.isSome && arrowBodySlotsPopulated body
  | .functionExpression _ body _ => stmtsSlotsPopulated body

/-- Slot check for arrow bodies. -/
def arrowBodySlotsPopulated : ArrowBody → Bool
  | .block stmts => stmtsSlotsPopulated stmts
  | .expr e => exprSlotsPopulated e

/-- Slot check for statements. -/
def stmtSlotsPopulated : Stmt → Bool
  | .variableDeclaration decls => declsSlotsPopulated decls
  | .functionDeclaration params body returnType =>
    params.all (fun p => p.typeAnn.isSome) && returnType.isSome && stmtsSlotsPopulated body
  | .returnStatement arg => optExprSlotsPopulated arg
  | .expressionStatement e => exprSlotsPopulated e
  | .ifStatement test consequent alternate =>
    exprSlotsPopulated test && stmtSlotsPopulated consequent && optStmtSlotsPopulated alternate

/-- Slot check for declarators: the bound identifier's annotation slot must be
populated. -/
def declSlotsPopulated : Declarator → Bool
  | .mk id init => id.typeAnn.isSome && optExprSlotsPopulated init

/-- Slot check over expression lists. -/
def exprsSlotsPopulated : List Expr → Bool
  | [] => true
  | e :: rest => exprSlotsPopulated e && exprsSlotsPopulated rest

/-- Slot check over optional expressions. -/
def optExprSlotsPopulated : Option Expr → Bool
  | none => true
  | some e => exprSlotsPopulated e

/-- Slot check over array-element lists. -/
def optExprsSlotsPopulated : List (Option Expr) → Bool
  | [] => true
  | el :: rest => optExprSlotsPopulated el && optExprsSlotsPopulated rest

/-- Slot check over statement lists. -/
def stmtsSlotsPopulated : List Stmt → Bool
  | [] => true
  | s :: rest => stmtSlotsPopulated s && stmtsSlotsPopulated rest

/-- Slot check over optional statements. -/
def optStmtSlotsPopulated : Option Stmt → Bool
  | none => true
  | some s => stmtSlotsPopulated s

/-- Slot check over declarator lists. -/
def declsSlotsPopulated : List Declarator → Bool
  | [] => true
  | d :: rest => declSlotsPopulated d && declsSlotsPopulated rest

end

mutual

/-- Every expression the pass returns has all visited-kind slots populated. -/
theorem annotateExpr_populated (e e' : Expr) (h : annotateExpr e = some e') :
    exprSlotsPopulated e' = true := by
  cases e with
  | numericLiteral => cases h; rfl
  | stringLiteral => cases h; rfl
  | booleanLiteral => cases h; rfl
  | nullLiteral => cases h; rfl
  | identifier name => cases h; rfl
  | arrayExpression elements =>
    rw [annotateExpr] at h
    cases hel : annotateOptExprs elements with
    | none => rw [hel] at h; exact absurd h (by simp)
    | some elements' =>
      rw [hel] at h
      cases h
      rw [exprSlotsPopulated]
      exact annotateOptExprs_populated elements elements' hel
  | callExpression callee args =>
    rw [annotateExpr] at h
    cases hc : annotateExpr callee with
    | none => rw [hc] at h; exact absurd h (by simp)
    | some callee' =>
      rw [hc] at h
      cases ha : annotateExprs args with
      | none => rw [ha] at h; exact absurd h (by simp)
      | some args' =>
        rw [ha] at h
        cases h
        rw [exprSlotsPopulated, Bool.and_eq_true]
        exact ⟨annotateExpr_populated callee callee' hc, annotateExprs_populated args args' ha⟩
  | objectExpression values =>
    rw [annotateExpr] at h
    cases hv : annotateExprs values with
    | none => rw [hv] at h; exact absurd h (by simp)
    | some values' =>
      rw [hv] at h
      cases h
      rw [exprSlotsPopulated]
      exact annotateExprs_populated values values' hv
  | templateLiteral exprs =>
    rw [annotateExpr] at h
    cases he : annotateExprs exprs with
    | none => rw [he] at h; exact absurd h (by simp)
    | some exprs' =>
      rw [he] at h
      cases h
      rw [exprSlotsPopulated]
      exact annotateExprs_populated exprs exprs' he
  | binaryExpression left right =>
    rw [annotateExpr] at h
    cases hl : annotateExpr left with
    | none => rw [hl] at h; exact absurd h (by simp)
    | some left' =>
      rw [hl] at h
      cases hr : annotateExpr right with
      | none => rw [hr] at h; exact absurd h (by simp)
      | some right' =>
        rw [hr] at h
        cases h
        rw [exprSlotsPopulated, Bool.and_eq_true]
        exact ⟨annotateExpr_populated left left' hl, annotateExpr_populated right right' hr⟩
  | arrowFunctionExpression params body returnType =>
    rw [annotateExpr] at h
    cases hrt : arrowFunctionReturnType returnType body with
    | none => rw [hrt] at h; exact absurd h (by simp)
    | some returnType' =>
      rw [hrt] at h
      cases hb : annotateArrowBody body with
      | none => rw [hb] at h; exact absurd h (by simp)
      | some body' =>
        rw [hb] at h
        cases h
        rw [exprSlotsPopulated, Bool.and_eq_true, Bool.and_eq_true]
        refine ⟨⟨?_, ?_⟩, annotateArrowBody_populated body body' hb⟩
        · rw [List.all_eq_true]
          intro p hp
          rw [annotateParams] at hp
          obtain ⟨q, _, hq⟩ := List.mem_map.mp hp
          rw [← hq]
          rfl
        · cases returnType with
          | none =>
            cases body with
            | block stmts =>
              rw [arrowFunctionReturnType] at hrt
              cases hs : scanReturns stmts .tsVoidKeyword with
              | none => rw [hs] at hrt; exact absurd hrt (by simp)
              | some ty => rw [hs] at hrt; cases hrt; rfl
            | expr e0 =>
              rw [arrowFunctionReturnType] at hrt
              cases hd : deduceExpressionType (some e0) with
              | none => rw [hd] at hrt; exact absurd hrt (by simp)
              | some ty => rw [hd] at hrt; cases hrt; rfl
          | some rt0 =>
            rw [arrowFunctionReturnType] at hrt
            cases hrt
            rfl
  | functionExpression params body returnType =>
    rw [annotateExpr] at h
    cases hb : annotateStmts body with
    | none => rw [hb] at h; exact absurd h (by simp)
    | some body' =>
      rw [hb] at h
      cases h
      rw [exprSlotsPopulated]
      exact annotateStmts_populated body body' hb

/-- Every arrow body the pass returns has all visited-kind slots populated. -/
theorem annotateArrowBody_populated (b b' : ArrowBody) (h : annotateArrowBody b = some b') :
    arrowBodySlotsPopulated b' = true := by
  cases b with
  | block stmts =>
    rw [annotateArrowBody] at h
    cases hs : annotateStmts stmts with
    | none => rw [hs] at h; exact absurd h (by simp)
    | some stmts' =>
      rw [hs] at h
      cases h
      rw [arrowBodySlotsPopulated]
      exact annotateStmts_populated stmts stmts' hs
  | expr e =>
    rw [annotateArrowBody] at h
    cases he : annotateExpr e with
    | none => rw [he] at h; exact absurd h (by simp)
    | some e' =>
      rw [he] at h
      cases h
      rw [arrowBodySlotsPopulated]
      exact annotateExpr_populated e e' he

/-- Every statement the pass returns has all visited-kind slots populated. -/
theorem annotateStmt_populated (s s' : Stmt) (h : annotateStmt s = some s') :
    stmtSlotsPopulated s' = true := by
  cases s with
  | variableDeclaration decls =>
    rw [annotateStmt] at h
    cases hd : annotateDecls decls with
    | none => rw [hd] at h; exact absurd h (by simp)
    | some decls' =>
      rw [hd] at h
      cases h
      rw [stmtSlotsPopulated]
      exact annotateDecls_populated decls decls' hd
  | functionDeclaration params body returnType =>
    rw [annotateStmt] at h
    cases hrt : functionDeclarationReturnType returnType body with
    | none => rw [hrt] at h; exact absurd h (by simp)
    | some returnType' =>
      rw [hrt] at h
      cases hb : annotateStmts body with
      | none => rw [hb] at h; exact absurd h (by simp)
      | some body' =>
        rw [hb] at h
        cases h
        rw [stmtSlotsPopulated, Bool.and_eq_true, Bool.and_eq_true]
        refine ⟨⟨?_, ?_⟩, annotateStmts_populated body body' hb⟩
        · rw [List.all_eq_true]
          intro p hp
          rw [annotateParams] at hp
          obtain ⟨q, _, hq⟩ := List.mem_map.mp hp
          rw [← hq]
          rfl
        · cases returnType with
          | none =>
            rw [functionDeclarationReturnType] at hrt
            cases hs : scanReturns body .tsVoidKeyword with
            | none => rw [hs] at hrt; exact absurd hrt (by simp)
            | some ty => rw [hs] at hrt; cases hrt; rfl
          | some rt0 =>
            rw [functionDeclarationReturnType] at hrt
            cases hrt
            rfl
  | returnStatement arg =>
    rw [annotateStmt] at h
    cases ha : annotateOptExpr arg with
    | none => rw [ha] at h; exact absurd h (by simp)
    | some arg' =>
      rw [ha] at h
      cases h
      rw [stmtSlotsPopulated]
      exact annotateOptExpr_populated arg arg' ha
  | expressionStatement e =>
    rw [annotateStmt] at h
    cases he : annotateExpr e with
    | none => rw [he] at h; exact absurd h (by simp)
    | some e' =>
      rw [he] at h
      cases h
      rw [stmtSlotsPopulated]
      exact annotateExpr_populated e e' he
  | ifStatement test consequent alternate =>
    rw [annotateStmt] at h
    cases ht : annotateExpr test with
    | none => rw [ht] at h; exact absurd h (by simp)
    | some test' =>
      rw [ht] at h
      cases hc : annotateStmt consequent with
      | none => rw [hc] at h; exact absurd h (by simp)
      | some consequent' =>
        rw [hc] at h
        cases ha : annotateOptStmt alternate with
        | none => rw [ha] at h; exact absurd h (by simp)
        | some alternate' =>
          rw [ha] at h
          cases h
          rw [stmtSlotsPopulated, Bool.and_eq_true, Bool.and_eq_true]
          exact ⟨⟨annotateExpr_populated test test' ht,
            annotateStmt_populated consequent consequent' hc⟩,
            annotateOptStmt_populated alternate alternate' ha⟩

/-- Every declarator the pass returns has its identifier slot populated. -/
theorem annotateDecl_populated (d d' : Declarator) (h : annotateDecl d = some d') :
    declSlotsPopulated d' = true := by
  cases d with
  | mk id init =>
    cases init with
    | none =>
      rw [annotateDecl] at h
      cases h
      rfl
    | some initExpr =>
      rw [annotateDecl] at h
      cases hd : deduceExpressionType (some initExpr) with
      | none => rw [hd] at h; exact absurd h (by simp)
      | some inferredType =>
        rw [hd] at h
        cases hi : annotateExpr initExpr with
        | none => rw [hi] at h; exact absurd h (by simp)
        | some init' =>
          rw [hi] at h
          cases h
          rw [declSlotsPopulated, Bool.and_eq_true]
          exact ⟨rfl, annotateExpr_populated initExpr init' hi⟩

/-- Listwise version for expression lists. -/
theorem annotateExprs_populated (l l' : List Expr) (h : annotateExprs l = some l') :
    exprsSlotsPopulated l' = true := by
  cases l with
  | nil => cases h; rfl
  | cons e rest =>
    rw [annotateExprs] at h
    cases he : annotateExpr e with
    | none => rw [he] at h; exact absurd h (by simp)
    | some e' =>
      rw [he] at h
      cases hr : annotateExprs rest with
      | none => rw [hr] at h; exact absurd h (by simp)
      | some rest' =>
        rw [hr] at h
        cases h
        rw [exprsSlotsPopulated, Bool.and_eq_true]
        exact ⟨annotateExpr_populated e e' he, annotateExprs_populated rest rest' hr⟩

/-- Optional-expression version. -/
theorem annotateOptExpr_populated (o o' : Option Expr) (h : annotateOptExpr o = some o') :
    optExprSlotsPopulated o' = true := by
  cases o with
  | none => cases h; rfl
  | some e =>
    rw [annotateOptExpr] at h
    cases he : annotateExpr e with
    | none => rw [he] at h; exact absurd h (by simp)
    | some e' =>
      rw [he] at h
      cases h
      rw [optExprSlotsPopulated]
      exact annotateExpr_populated e e' he

/-- Listwise version for array-element lists. -/
theorem annotateOptExprs_populated (l l' : List (Option Expr))
    (h : annotateOptExprs l = some l') : optExprsSlotsPopulated l' = true := by
  cases l with
  | nil => cases h; rfl
  | cons el rest =>
    rw [annotateOptExprs] at h
    cases he : annotateOptExpr el with
    | none => rw [he] at h; exact absurd h (by simp)
    | some el' =>
      rw [he] at h
      cases hr : annotateOptExprs rest with
      | none => rw [hr] at h; exact absurd h (by simp)
      | some rest' =>
        rw [hr] at h
        cases h
        rw [optExprsSlotsPopulated, Bool.and_eq_true]
        exact ⟨annotateOptExpr_populated el el' he, annotateOptExprs_populated rest rest' hr⟩

/-- Listwise version for statement lists. -/
theorem annotateStmts_populated (l l' : List Stmt) (h : annotateStmts l = some l') :
    stmtsSlotsPopulated l' = true := by
  cases l with
  | nil => cases h; rfl
  | cons s rest =>
    rw [annotateStmts] at h
    cases hs : annotateStmt s with
    | none => rw [hs] at h; exact absurd h (by simp)
    | some s' =>
      rw [hs] at h
      cases hr : annotateStmts rest with
      | none => rw [hr] at h; exact absurd h (by simp)
      | some rest' =>
        rw [hr] at h
        cases h
        rw [stmtsSlotsPopulated, Bool.and_eq_true]
        exact ⟨annotateStmt_populated s s' hs, annotateStmts_populated rest rest' hr⟩

/-- Optional-statement version. -/
theorem annotateOptStmt_populated (o o' : Option Stmt) (h : annotateOptStmt o = some o') :
    optStmtSlotsPopulated o' = true := by
  cases o with
  | none => cases h; rfl
  | some s =>
    rw [annotateOptStmt] at h
    cases hs : annotateStmt s with
    | none => rw [hs] at h; exact absurd h (by simp)
    | some s' =>
      rw [hs] at h
      cases h
      rw [optStmtSlotsPopulated]
      exact annotateStmt_populated s s' hs

/-- Listwise version for declarator lists. -/
theorem annotateDecls_populated (l l' : List Declarator) (h : annotateDecls l = some l') :
    declsSlotsPopulated l' = true := by
  cases l with
  | nil => cases h; rfl
  | cons d rest =>
    rw [annotateDecls] at h
    cases hd : annotateDecl d with
    | none => rw [hd] at h; exact absurd h (by simp)
    | some d' =>
      rw [hd] at h
      cases hr : annotateDecls rest with
      | none => rw [hr] at h; exact absurd h (by simp)
      | some rest' =>
        rw [hr] at h
        cases h
        rw [declsSlotsPopulated, Bool.and_eq_true]
        exact ⟨annotateDecl_populated d d' hd, annotateDecls_populated rest rest' hr⟩

end

/-- C7 counterexample: on `const f = function (g) {};` the pass completes, the
declarator is annotated, but the plain function expression's parameter `g`
ends the pass with no annotation and its return-type slot stays empty — so not
every function parameter and function ends the pass with a populated slot. -/
theorem slots_populated_cex :
    addTypeAnnots [.variableDeclaration [.mk (Ident.mk "f" none)
        (some (.functionExpression [Param.mk "g" none] [] none))]]
      = some [.variableDeclaration [.mk (Ident.mk "f" (some .tsAnyKeyword))
        (some (.functionExpression [Param.mk "g" none] [] none))]] ∧
    ((fnExprParams (.functionExpression [Param.mk "g" none] [] none)).all
      (fun p => p.typeAnn.isSome)) = false ∧
    (fnExprReturnType (.functionExpression [Param.mk "g" none] [] none)).isSome = false :=
  ⟨rfl, rfl, rfl⟩

/-- C7 amended: whenever the annotation pass completes, every variable
declarator's identifier, and every parameter and the return-type slot of every
function declaration and arrow function expression — anywhere in the tree —
ends with its annotation slot populated; slots of plain (non-arrow) function
expressions are exempt. -/
theorem all_visited_slots_populated :
    ∀ (ast ast' : List Stmt), addTypeAnnots ast = some ast' →
      stmtsSlotsPopulated ast' = true := by
  intro ast ast' h
  exact annotateStmts_populated ast ast' h

/-- Witness for the amended C7 on a concrete program with a declarator, a
nested arrow function and a function declaration. -/
theorem all_visited_slots_populated_w :
    stmtsSlotsPopulated
        [.variableDeclaration [.mk (Ident.mk "h" (some .tsAnyKeyword))
          (some (.arrowFunctionExpression [Param.mk "x" (some .tsAnyKeyword)]
            (.expr .numericLiteral) (some .tsNumberKeyword)))],
         .functionDeclaration [Param.mk "a" (some .tsAnyKeyword)] []
           (some .tsVoidKeyword)] = true :=
  all_visited_slots_populated
    [.variableDeclaration [.mk (Ident.mk "h" none)
      (some (.arrowFunctionExpression [Param.mk "x" none] (.expr .numericLiteral) none))],
     .functionDeclaration [Param.mk "a" none] [] none]
    [.variableDeclaration [.mk (Ident.mk "h" (some .tsAnyKeyword))
      (some (.arrowFunctionExpression [Param.mk "x" (some .tsAnyKeyword)]
        (.expr .numericLiteral) (some .tsNumberKeyword)))],
     .functionDeclaration [Param.mk "a" (some .tsAnyKeyword)] [] (some .tsVoidKeyword)]
    rfl

/-- Whether `pat` is an initial segment of `s`, character by character. -/
def matchesAt : List Char → List Char → Bool
  | [], _ => true
  | _ :: _, [] => false
  | p :: ps, c :: cs => p == c && matchesAt ps cs

/-- Sanity check connecting `matchesAt` to list prefixes. -/
theorem matchesAt_iff (pat : List Char) :
    ∀ s : List Char, matchesAt pat s = true ↔ pat <+: s := by
  induction pat with
  | nil => intro s; simp [matchesAt, List.nil_prefix]
  | cons p ps ih =>
    intro s
    cases s with
    | nil => simp [matchesAt]
    | cons c cs => simp [matchesAt, List.cons_prefix_cons, ih cs, And.comm]

/-- Model of JavaScript `String.prototype.endsWith` (src/node_new.js line 126):
the suffix must match at the end of the string, checked on reversed
character lists. -/
def strEndsWith (s suffix : String) : Bool :=
  matchesAt suffix.data.reverse s.data.reverse

/-- Sanity check: `strEndsWith` is exactly the list-suffix relation on the
strings' characters. -/
theorem strEndsWith_iff (s suffix : String) :
    strEndsWith s suffix = true ↔ suffix.data <:+ s.data := by
  rw [strEndsWith, matchesAt_iff, List.reverse_prefix]

/-- Whether `pat` occurs as a contiguous fragment anywhere in `s`. -/
def hasMatch (pat : List Char) : List Char → Bool
  | [] => matchesAt pat []
  | c :: rest => matchesAt pat (c :: rest) || hasMatch pat rest

/-- Model of JavaScript `String.prototype.replace` with a plain string pattern
(src/node_new.js line 116): scanning left to right, only the first occurrence
of `pat` is replaced by `rep`; with no occurrence the string is returned
unchanged. (The JavaScript corner case of an empty pattern on an empty string
is irrelevant here: the pattern used is ".js".) -/
def replaceFirstChars (pat rep : List Char) : List Char → List Char
  | [] => []
  | c :: rest =>
    if matchesAt pat (c :: rest) then rep ++ (c :: rest).drop pat.length
    else c :: replaceFirstChars pat rep rest

/-- String-level wrapper for `replaceFirstChars`, modelling
`s.replace(pat, rep)` with a string pattern. -/
def replaceFirst (s pat rep : String) : String :=
  String.mk (replaceFirstChars pat.data rep.data s.data)

/-- The output path computation of `transformJsFileToTsFile` (src/node_new.js
line 116): `jsFilePath.replace('.js', '.ts')` — the first occurrence of ".js"
anywhere in the whole path is replaced. -/
def tsFilePath (jsFilePath : String) : String :=
  replaceFirst jsFilePath ".js" ".ts"

/-- Model of `path.join(dirPath, file)` (src/node_new.js line 125) for a plain
directory path and entry name: concatenation with the "/" separator. -/
def joinPath (dirPath fileName : String) : String :=
  dirPath ++ "/" ++ fileName

/-- A directory entry as seen by `fs.readdirSync` plus the `fs.statSync`
regular-file check. -/
structure DirEntry where
  name : String
  isFile : Bool

/-- The selection of `transformJsFilesInDir` (src/node_new.js lines 122-130):
the files of the directory (non-recursive) that are regular files and whose
joined path ends in ".js", as the list of their full paths, in directory
order. -/
def transformTargets (dirPath : String) (files : List DirEntry) : List String :=
  (files.filter (fun f => f.isFile && strEndsWith (joinPath dirPath f.name) ".js")).map
    (fun f => joinPath dirPath f.name)

/-- Model of `fs.writeFileSync` (src/node_new.js line 117) over a functional
file store: the write replaces whatever content the path previously had. -/
def writeFileSync (store : String → Option String) (p c : String) : String → Option String :=
  fun q => if q = p then some c else store q

/-- A pattern without '/' matches at the front of `a ++ '/' :: b` exactly when
it matches at the front of `a`: it can neither start at the separator nor run
across it. -/
theorem matchesAt_append_slash :
    ∀ pat : List Char, ('/' : Char) ∉ pat →
      ∀ a b : List Char, matchesAt pat (a ++ '/' :: b) = matchesAt pat a := by
  intro pat
  induction pat with
  | nil => intro _ a b; rfl
  | cons p ps ih =>
    intro hp a b
    have hps : ('/' : Char) ∉ ps := fun hh => hp (List.mem_cons_of_mem p hh)
    have hpc : p ≠ '/' := fun hh => hp (by rw [hh]; exact List.mem_cons_self '/' ps)
    cases a with
    | nil => simp [matchesAt, hpc]
    | cons c cs =>
      simp only [List.cons_append]
      rw [matchesAt, matchesAt, ih hps cs b]

/-- First-occurrence replacement with a '/'-free pattern passes over a prefix
in which the pattern does not occur. -/
theorem replaceFirst_append_slash :
    ∀ (pat rep d n : List Char), ('/' : Char) ∉ pat → hasMatch pat d = false →
      replaceFirstChars pat rep (d ++ '/' :: n) = d ++ '/' :: replaceFirstChars pat rep n := by
  intro pat rep d
  induction d with
  | nil =>
    intro n hpat hd
    cases pat with
    | nil => rw [hasMatch] at hd; exact absurd hd (by simp [matchesAt])
    | cons p ps =>
      have hpc : p ≠ '/' := fun hh => hpat (by rw [hh]; exact List.mem_cons_self '/' ps)
      simp only [List.nil_append]
      rw [replaceFirstChars]
      simp [matchesAt, hpc]
  | cons c cs ih =>
    intro n hpat hd
    rw [hasMatch] at hd
    have h1 : matchesAt pat (c :: cs) = false := by
      cases hm : matchesAt pat (c :: cs) with
      | false => rfl
      | true => rw [hm] at hd; simp at hd
    have h2 : hasMatch pat cs = false := by
      cases hm : hasMatch pat cs with
      | false => rfl
      | true => rw [hm] at hd; simp at hd
    have hm' : matchesAt pat (c :: (cs ++ '/' :: n)) = false := by
      have hsplit := matchesAt_append_slash pat hpat (c :: cs) n
      simp only [List.cons_append] at hsplit
      rw [hsplit, h1]
    simp only [List.cons_append]
    rw [replaceFirstChars, hm']
    simp only [Bool.false_eq_true, if_false]
    rw [ih n hpat h2]

/-- Character-list view of `joinPath`. -/
theorem joinPath_data (a b : String) :
    (joinPath a b).data = a.data ++ '/' :: b.data := by
  rw [joinPath, String.data_append, String.data_append, List.append_assoc]
  rfl

/-- Since ".js" contains no '/', the joined path ends in ".js" exactly when
the entry name does. -/
theorem strEndsWith_joinPath (dirPath fileName : String) :
    strEndsWith (joinPath dirPath fileName) ".js" = strEndsWith fileName ".js" := by
  rw [strEndsWith, strEndsWith, joinPath_data]
  rw [show (dirPath.data ++ '/' :: fileName.data).reverse
      = fileName.data.reverse ++ '/' :: dirPath.data.reverse from by
    rw [List.reverse_append, List.reverse_cons, List.append_assoc]; rfl]
  exact matchesAt_append_slash (".js".data.reverse) (by decide) fileName.data.reverse
    dirPath.data.reverse

/-- C8 counterexample: for the directory path "a.js" and input file "f.js",
the input path is "a.js/f.js" but the first ".js" occurrence lies in the
directory component, so the output path is "a.ts/f.js" — which is not a
sibling of the input (it does not lie in the directory "a.js"). -/
theorem dir_pass_sibling_cex :
    tsFilePath (joinPath "a.js" "f.js") = "a.ts/f.js" ∧
    matchesAt ("a.js/").data (joinPath "a.js" "f.js").data = true ∧
    matchesAt ("a.js/").data ("a.ts/f.js").data = false := by
  refine ⟨by decide, by decide, by decide⟩

/-- C8 amended: the directory pass selects exactly the regular files directly
inside the directory whose names end in ".js"; the output path replaces the
first occurrence of ".js" in the whole input path, which is a sibling file
(the replacement happens in the file name) whenever the directory path itself
contains no ".js"; and a write replaces any previous content at the output
path. -/
theorem dir_pass_selection_and_paths :
    (∀ (dirPath : String) (files : List DirEntry),
        transformTargets dirPath files
          = (files.filter (fun f => f.isFile && strEndsWith f.name ".js")).map
              (fun f => joinPath dirPath f.name)) ∧
    (∀ (dirPath fileName : String), hasMatch ".js".data dirPath.data = false →
        tsFilePath (joinPath dirPath fileName) = joinPath dirPath (tsFilePath fileName)) ∧
    (∀ (store : String → Option String) (p cOld cNew : String), store p = some cOld →
        writeFileSync store p cNew p = some cNew) := by
  refine ⟨?_, ?_, ?_⟩
  · intro dirPath files
    rw [transformTargets]
    congr 1
    apply List.filter_congr
    intro f _
    rw [strEndsWith_joinPath]
  · intro dirPath fileName h
    apply String.ext
    rw [tsFilePath, tsFilePath, replaceFirst, replaceFirst]
    show replaceFirstChars (".js").data (".ts").data (joinPath dirPath fileName).data
      = (joinPath dirPath (String.mk (replaceFirstChars (".js").data (".ts").data
          fileName.data))).data
    rw [joinPath_data, joinPath_data]
    exact replaceFirst_append_slash (".js").data (".ts").data dirPath.data fileName.data
      (by decide) h
  · intro store p cOld cNew _
    rw [writeFileSync]
    simp

/-- Witness for the amended C8: for the ".js"-free directory "src" the output
of "src/f.js" is the sibling "src/f.ts". -/
theorem dir_pass_selection_and_paths_w :
    tsFilePath (joinPath "src" "f.js") = joinPath "src" (tsFilePath "f.js") :=
  dir_pass_selection_and_paths.2.1 "src" "f.js" (by decide)

end JsToTs
